import Mathlib

/-!
Verification of the `code-checker` service (a NestJS application that audits the
HTML files of a remote GitHub repository) against its design specification.

The TypeScript sources are shallowly embedded:

* strings are `String`/`List Char`; the JavaScript string operations used by the
  code (`toLowerCase`, `trim`, `endsWith`, `includes`, `split('.')`) are modelled
  on `List Char` with their ASCII semantics;
* the browser, the GitHub API and the W3C validator are external collaborators:
  a run is modelled as a function of the observations the code extracts from
  them (DOM counts, HTTP outcomes, validator message lists);
* thrown JavaScript exceptions are modelled with `Except`; the dynamic
  attributes a `catch` block inspects (`instanceof BrowserError`,
  `error.response?.status`, `error.code`) are carried explicitly by the
  `ThrownError` structure.
-/

namespace CodeChecker

/-! ## JavaScript string primitives, modelled on `List Char` -/

/-- JS `String.prototype.toLowerCase` on one character (ASCII range, which is
all the code ever compares against). -/
def jsCharToLower (c : Char) : Char :=
  if 65 ≤ c.toNat ∧ c.toNat ≤ 90 then Char.ofNat (c.toNat + 32) else c

/-- JS `String.prototype.toLowerCase`. -/
def jsToLower (l : List Char) : List Char := l.map jsCharToLower

/-- JS `String.prototype.trim`: strip leading and trailing whitespace. -/
def jsTrim (l : List Char) : List Char :=
  ((l.dropWhile Char.isWhitespace).reverse.dropWhile Char.isWhitespace).reverse

/-- The apostrophe character (codepoint 39), named so that no literal in the
development has to quote it. -/
def apostrophe : Char := Char.ofNat 39

/-- JS `String.prototype.includes pat`: `pat` occurs as a contiguous substring. -/
def containsSub (pat l : List Char) : Bool :=
  l.tails.any (fun t => pat.isPrefixOf t)

/-! ## `decodeHtmlEntities` (playwright.service.ts, lines 112-124)

```ts
private decodeHtmlEntities(encodedString: string): string {
  const entities = { '&lt;': '<', '&gt;': '>', '&amp;': '&', '&quot;': '"', '&#39;': "'" };
  return encodedString.replace(/&lt;|&gt;|&amp;|&quot;|&#39;/g, (match) => entities[match]);
}
```

A global regex replace scans the string left to right, replacing each
non-overlapping occurrence of one of the five alternatives.  `decodeScan` is
that scan; the fuel argument only bounds the number of steps (each step
consumes at least one input character, so fuel = input length never runs out).
-/

/-- One left-to-right pass of the JS regex replace, with explicit step fuel. -/
def decodeScan : Nat → List Char → List Char
  | 0, rest => rest
  | _ + 1, [] => []
  | fuel + 1, c :: cs =>
    if ("&lt;".data).isPrefixOf (c :: cs) then '<' :: decodeScan fuel (cs.drop 3)
    else if ("&gt;".data).isPrefixOf (c :: cs) then '>' :: decodeScan fuel (cs.drop 3)
    else if ("&amp;".data).isPrefixOf (c :: cs) then '&' :: decodeScan fuel (cs.drop 4)
    else if ("&quot;".data).isPrefixOf (c :: cs) then '"' :: decodeScan fuel (cs.drop 5)
    else if ("&#39;".data).isPrefixOf (c :: cs) then apostrophe :: decodeScan fuel (cs.drop 4)
    else c :: decodeScan fuel cs

/-- `decodeHtmlEntities` of playwright.service.ts. -/
def decodeHtmlEntities (l : List Char) : List Char := decodeScan l.length l

/-- String-level wrapper of `decodeHtmlEntities`. -/
def decodeHtmlEntitiesStr (s : String) : String := String.mk (decodeHtmlEntities s.data)

/-- The five entity sequences recognised by `decodeHtmlEntities`. -/
def entitySeqs : List (List Char) :=
  ["&lt;".data, "&gt;".data, "&amp;".data, "&quot;".data, "&#39;".data]

/-- The string contains at least one of the five recognised entity sequences. -/
def hasEntitySeq (l : List Char) : Bool := entitySeqs.any (fun p => containsSub p l)

/-! ## GitService (git.service.ts) -/

/-- The `type` field of a `RepoFile` (git.service.ts, lines 3-8). -/
inductive FileType where
  | HTML
  | CSS
  | JavaScript
deriving DecidableEq

/-- A qualifying source-tree leaf (git.service.ts, interface `RepoFile`). -/
structure RepoFile where
  name : String
  path : String
  type : FileType
  url : String
deriving DecidableEq

/-- `isRelevantFile` (git.service.ts, lines 55-60):
`['.html', '.css', '.js'].some(ext => filename.toLowerCase().endsWith(ext))`. -/
def isRelevantFile (filename : String) : Bool :=
  [".html".data, ".css".data, ".js".data].any
    (fun ext => ext.isSuffixOf (jsToLower filename.data))

/-- JS `filename.split('.')` (never returns an empty array). -/
def splitOnDot : List Char → List (List Char)
  | [] => [[]]
  | c :: cs =>
    match splitOnDot cs with
    | [] => [[]]
    | seg :: rest => if c = '.' then [] :: seg :: rest else (c :: seg) :: rest

/-- `getFileType` (git.service.ts, lines 62-74):
`filename.split('.').pop()?.toLowerCase()` switched over `html`/`css`/`js`;
the `default` branch throws `Unsupported file type`, modelled as `none`. -/
def getFileType (filename : String) : Option FileType :=
  match (splitOnDot filename.data).getLast? with
  | none => none
  | some extChars =>
    match String.mk (jsToLower extChars) with
    | "html" => some FileType.HTML
    | "css" => some FileType.CSS
    | "js" => some FileType.JavaScript
    | _ => none

/-- One directory listing entry as returned by the GitHub contents API
(`type` is `file` or `dir`); a `dir` carries the listing that the recursive
`fetchDirectory` call would receive for it. -/
inductive Entry where
  | file (name path url : String)
  | dir (path : String) (entries : List Entry)

/-- The traversal loop of `fetchDirectory` (git.service.ts, lines 32-44): a
`file` entry passing `isRelevantFile` is classified with `getFileType` and
emitted as a `RepoFile` (with `name := item.path`, as in the source); the
`default` throw of `getFileType` is modelled as `Except.error`; a `dir` entry
is recursed into and its results appended. -/
def fetchDirectory : List Entry → Except String (List RepoFile)
  | [] => .ok []
  | Entry.file name path url :: rest =>
    if isRelevantFile name then
      match getFileType name with
      | some t =>
        match fetchDirectory rest with
        | .error e => .error e
        | .ok fs => .ok ({ name := path, path := path, type := t, url := url } :: fs)
      | none => .error ("Unsupported file type: " ++ name)
    else fetchDirectory rest
  | Entry.dir _ entries :: rest =>
    match fetchDirectory entries with
    | .error e => .error e
    | .ok sub =>
      match fetchDirectory rest with
      | .error e => .error e
      | .ok fs => .ok (sub ++ fs)

/-! ## Check data model (playwright.service.ts, lines 6-21) -/

/-- Modelled from the spec: the repository's `src/constants` module (the
`CHECK_LABELS` object imported by both services) is missing from the sources;
only its import and its four member names are visible at the call sites.  The
label strings are display-only and no claim depends on their values, so they
are modelled as the member names themselves. -/
def SINGLE_H1_LABEL : String := "SINGLE_H1"

/-- Modelled from the spec: see `SINGLE_H1_LABEL`. -/
def IMAGE_ALTS_LABEL : String := "IMAGE_ALTS"

/-- Modelled from the spec: see `SINGLE_H1_LABEL`. -/
def W3C_VALIDATION_LABEL : String := "W3C_VALIDATION"

/-- Modelled from the spec: see `SINGLE_H1_LABEL`. -/
def HORIZONTAL_SCROLLBAR_LABEL : String := "HORIZONTAL_SCROLLBAR"

/-- The `status` field of a `CheckResult`: `'pass' | 'fail'`. -/
inductive Status where
  | pass
  | fail
deriving DecidableEq

/-- `CheckResult` (playwright.service.ts, lines 6-10). -/
structure CheckResult where
  status : Status
  message : Option String := none
  details : Option (List String) := none
deriving DecidableEq

/-- One entry of `FileCheckResult.checks`: `{ label: string } & CheckResult`. -/
structure LabeledCheckResult where
  label : String
  status : Status
  message : Option String := none
  details : Option (List String) := none
deriving DecidableEq

/-- The four sub-checks of a `FileCheckResult`. -/
structure FileChecks where
  singleH1 : LabeledCheckResult
  imageAlts : LabeledCheckResult
  w3cValidation : LabeledCheckResult
  horizontalScrollbar : LabeledCheckResult
deriving DecidableEq

/-- `FileCheckResult` (playwright.service.ts, lines 12-21). -/
structure FileCheckResult where
  fileName : String
  passed : Bool
  checks : FileChecks
deriving DecidableEq

/-- Attach a label to a bare `CheckResult` (the `{ label, ...result }` spreads). -/
def withLabel (label : String) (r : CheckResult) : LabeledCheckResult :=
  { label := label, status := r.status, message := r.message, details := r.details }

/-- `allChecksPassed` (code-check.service.ts, lines 211-213), also inlined in
`runChecks`: `Object.values(checks).every((check) => check.status === 'pass')`. -/
def allChecksPassed (checks : FileChecks) : Bool :=
  [checks.singleH1.status, checks.imageAlts.status,
   checks.w3cValidation.status, checks.horizontalScrollbar.status].all
    (fun s => s == Status.pass)

/-! ## The three structural checks (playwright.service.ts) -/

/-- `checkSingleH1` (playwright.service.ts, lines 126-145) as a function of the
h1 element count the page evaluation returns. -/
def checkSingleH1 (h1Count : Nat) : CheckResult :=
  if h1Count = 1 then { status := Status.pass }
  else if h1Count = 0 then { status := Status.fail, message := some "No h1 found" }
  else { status := Status.fail,
         message := some ("More than one h1 found (" ++ toString h1Count ++ ")") }

/-- What the page evaluation extracts for one `img` element:
`{ alt: img.alt, hasAlt: img.hasAttribute('alt') }` (the `src` field is never
read afterwards and is omitted). -/
structure ImgInfo where
  hasAlt : Bool
  alt : String
deriving DecidableEq

/-- The issue line (if any) the `forEach` body of `checkImageAlts` pushes for
the image at 0-based position `index`. -/
def imageAltIssue (index : Nat) (img : ImgInfo) : Option String :=
  if !img.hasAlt then
    some ("Image #" ++ toString (index + 1) ++ " is missing alt attribute")
  else if jsTrim img.alt.data = [] then
    some ("Image #" ++ toString (index + 1) ++ " has an empty alt attribute")
  else if containsSub "image".data (jsToLower img.alt.data)
       || containsSub "picture".data (jsToLower img.alt.data) then
    some ("Image #" ++ toString (index + 1)
      ++ " has alt text containing \"image\" or \"picture\": \"" ++ img.alt ++ "\"")
  else none

/-- The `issues` array accumulated by `checkImageAlts`, in document order. -/
def imageAltIssues (images : List ImgInfo) : List String :=
  images.enum.filterMap (fun p => imageAltIssue p.1 p.2)

/-- `checkImageAlts` (playwright.service.ts, lines 147-197) as a function of
the extracted image list; `hasFailure` is true exactly when `issues` is
non-empty. -/
def checkImageAlts (images : List ImgInfo) : CheckResult :=
  let issues := imageAltIssues images
  if issues.isEmpty then
    { status := Status.pass,
      message := some ("All " ++ toString images.length
        ++ " images have appropriate alt attributes") }
  else
    { status := Status.fail,
      message := some "Some images have issues with alt attributes",
      details := some issues }

/-- The viewport widths visited by the loop
`for (let width = 320; width <= 1920; width += 10)` of
`checkHorizontalScrollbar`, in visit order. -/
def sweepWidths : List Nat := (List.range 161).map (fun k => 320 + 10 * k)

/-- `checkHorizontalScrollbar` (playwright.service.ts, lines 199-244) as a
function of the per-width page evaluation
`document.documentElement.scrollWidth > document.documentElement.clientWidth`;
the loop breaks at the first width where it holds. -/
def checkHorizontalScrollbar (hasScrollbarAt : Nat → Bool) : CheckResult :=
  match sweepWidths.find? hasScrollbarAt with
  | some w =>
    { status := Status.fail,
      message := some ("Horizontal scrollbar detected at " ++ toString w ++ "px width") }
  | none =>
    { status := Status.pass,
      message := some "No horizontal scrollbar detected for widths 320px and above" }

/-- What the code observes about one rendered page: the h1 count, the image
list and the per-width overflow predicate the three checks consume. -/
structure PageObservation where
  h1Count : Nat
  images : List ImgInfo
  hasScrollbarAt : Nat → Bool

/-- `runChecks` (playwright.service.ts, lines 80-110): the three structural
checks plus the `w3cValidation` placeholder, with `passed` computed as the
conjunction of the four statuses. -/
def runChecks (fileName : String) (obs : PageObservation) : FileCheckResult :=
  let checks : FileChecks :=
    { singleH1 := withLabel SINGLE_H1_LABEL (checkSingleH1 obs.h1Count)
      imageAlts := withLabel IMAGE_ALTS_LABEL (checkImageAlts obs.images)
      w3cValidation :=
        { label := W3C_VALIDATION_LABEL, status := Status.pass,
          message := some "W3C validation not performed in this service" }
      horizontalScrollbar :=
        withLabel HORIZONTAL_SCROLLBAR_LABEL (checkHorizontalScrollbar obs.hasScrollbarAt) }
  { fileName := fileName, passed := allChecksPassed checks, checks := checks }

/-! ## checkHtmlFile content flow (playwright.service.ts, lines 40-79)

On the success path `checkHtmlFile` reads the raw body of the fetched file
(`response.text()`), entity-decodes it, injects the decoded string via
`page.setContent(decodedContent)`, runs the checks, and returns
`{ checkResult, content: decodedContent }`. -/

/-- The value returned by `checkHtmlFile` on its success path. -/
structure CheckHtmlOutput where
  checkResult : FileCheckResult
  content : List Char
deriving DecidableEq

/-- `checkHtmlFile` success path, as a function of the raw fetched content and
the page observations. -/
def checkHtmlFile (raw : List Char) (obs : PageObservation) (filePath : String) :
    CheckHtmlOutput :=
  { checkResult := runChecks filePath obs, content := decodeHtmlEntities raw }

/-- The argument of `page.setContent` (playwright.service.ts, line 58). -/
def setContentArg (raw : List Char) : List Char := decodeHtmlEntities raw

/-- The string `checkRepo` passes to `validateHtml` (code-check.service.ts,
lines 68-71): the `content` field returned by `checkHtmlFile`. -/
def validatorSubmission (raw : List Char) (obs : PageObservation) (filePath : String) :
    List Char :=
  (checkHtmlFile raw obs filePath).content

/-- The request body `HtmlValidatorService.validateHtml` posts to the
validation endpoint (html-validator.service.ts, `body: html`): its argument,
unchanged. -/
def validatorPostBody (html : List Char) : List Char := html

/-! ## ExternalValidator reduction (code-check.service.ts, lines 136-160) -/

/-- One entry of the validator's JSON `messages` list. -/
structure ValidatorMessage where
  type : String
  lastLine : Nat
  message : String
deriving DecidableEq

/-- `validateHtml` of code-check.service.ts as a function of the validator
call's outcome (`Except.error` models the exception
`HtmlValidatorService.validateHtml` throws on a network or non-2xx failure). -/
def validateHtmlReduce (resp : Except String (List ValidatorMessage)) : CheckResult :=
  match resp with
  | .error msg =>
    { status := Status.fail, message := some ("Error in W3C validation: " ++ msg) }
  | .ok messages =>
    let errors := messages.filter (fun m => m.type == "error")
    if errors.length == 0 then
      { status := Status.pass, message := some "HTML is valid according to W3C" }
    else
      { status := Status.fail, message := some "W3C validation errors found",
        details := some (errors.map
          (fun e => "Line " ++ toString e.lastLine ++ ": " ++ e.message)) }

/-! ## CheckOrchestrator (code-check.service.ts, `checkRepo`) -/

/-- The attributes of a thrown JS error that the `catch` blocks of `checkRepo`
inspect: `instanceof BrowserError`, `error.response?.status`, `error.code`, and
`error.message`. -/
structure ThrownError where
  isBrowserError : Bool
  responseStatus : Option Nat
  code : Option String
  message : String
deriving DecidableEq

/-- The NestJS `HttpException` thrown by `fetchDirectory`'s catch block
(git.service.ts, lines 47-52): its `response` attribute is the plain message
string (which has no `status` attribute, so `error.response?.status` is
undefined), and it carries no `code` attribute. -/
def httpExceptionThrown (msg : String) : ThrownError :=
  { isBrowserError := false, responseStatus := none, code := none, message := msg }

/-- A `BrowserError` as observed by a `catch` block. -/
def browserErrorThrown (msg : String) : ThrownError :=
  { isBrowserError := true, responseStatus := none, code := none, message := msg }

/-- How a repository fetch can fail externally. -/
inductive FetchFailure where
  | notFound
  | unreachable (causeMsg : String)
deriving DecidableEq

/-- The error `fetchDirectory` throws for each failure (git.service.ts): a
404 from the GitHub API makes the `response.ok` guard throw
`GitHub API responded with status: 404`; an unreachable host makes `fetch`
itself reject; both are caught and re-wrapped into the `HttpException`
`Failed to fetch repo contents: <message>`. -/
def gitFetchError : FetchFailure → ThrownError
  | FetchFailure.notFound =>
    httpExceptionThrown "Failed to fetch repo contents: GitHub API responded with status: 404"
  | FetchFailure.unreachable causeMsg =>
    httpExceptionThrown ("Failed to fetch repo contents: " ++ causeMsg)

/-- The error taxonomy of errors/app.errors.ts as raised by `checkRepo`. -/
inductive AppError where
  | repoNotFound
  | networkError
  | browserError (message : String)
  | unknownError (message : String)
deriving DecidableEq

/-- The outer catch block of `checkRepo` (code-check.service.ts, lines
123-134): rethrow a `BrowserError`; map `error.response?.status === 404` to
`RepoNotFoundError` and `error.code === 'ENOTFOUND'` to `NetworkError`;
otherwise wrap into `UnknownError`. -/
def classifyCheckRepoError (e : ThrownError) : AppError :=
  if e.isBrowserError then AppError.browserError e.message
  else if e.responseStatus == some 404 then AppError.repoNotFound
  else if e.code == some "ENOTFOUND" then AppError.networkError
  else AppError.unknownError ("Failed to check repository: " ++ e.message)

/-- How processing one HTML file can turn out, seen from the per-file `try` of
`checkRepo`: the success path carries the page observations and the validator
outcome; `softError` is any non-`BrowserError` exception; `browserError` is a
thrown `BrowserError` (e.g. `Browser instance is not available`). -/
inductive FileProcessOutcome where
  | success (obs : PageObservation) (validatorResp : Except String (List ValidatorMessage))
  | softError (msg : String)
  | browserError (msg : String)

/-- The merged per-file record built on the success path of the loop body
(code-check.service.ts, lines 68-86): replace the placeholder `w3cValidation`
with the validator result and recompute `passed` with `allChecksPassed`. -/
def successRecord (filePath : String) (obs : PageObservation)
    (validatorResp : Except String (List ValidatorMessage)) : FileCheckResult :=
  let checkResult := runChecks filePath obs
  let w3c := validateHtmlReduce validatorResp
  let checks : FileChecks :=
    { checkResult.checks with
      w3cValidation := withLabel W3C_VALIDATION_LABEL w3c }
  { fileName := checkResult.fileName
    passed := allChecksPassed checks
    checks := checks }

/-- The record pushed by the per-file catch block (code-check.service.ts,
lines 91-117): all four categories failed with the same error message. -/
def errorFileResult (filePath msg : String) : FileCheckResult :=
  { fileName := filePath
    passed := false
    checks :=
      { singleH1 :=
          { label := SINGLE_H1_LABEL,
            status := Status.fail, message := some ("Error: " ++ msg) }
        imageAlts :=
          { label := IMAGE_ALTS_LABEL,
            status := Status.fail, message := some ("Error: " ++ msg) }
        w3cValidation :=
          { label := W3C_VALIDATION_LABEL,
            status := Status.fail, message := some ("Error: " ++ msg) }
        horizontalScrollbar :=
          { label := HORIZONTAL_SCROLLBAR_LABEL,
            status := Status.fail, message := some ("Error: " ++ msg) } } }

/-- The per-file loop of `checkRepo` (code-check.service.ts, lines 66-119): a
thrown `BrowserError` is rethrown and aborts the whole loop (discarding every
accumulated record); any other per-file failure appends `errorFileResult` and
continues. -/
def processFiles : List (RepoFile × FileProcessOutcome) → Except String (List FileCheckResult)
  | [] => .ok []
  | (file, outcome) :: rest =>
    match outcome with
    | FileProcessOutcome.browserError msg => .error msg
    | FileProcessOutcome.success obs resp =>
      match processFiles rest with
      | .error e => .error e
      | .ok rs => .ok (successRecord file.path obs resp :: rs)
    | FileProcessOutcome.softError msg =>
      match processFiles rest with
      | .error e => .error e
      | .ok rs => .ok (errorFileResult file.path msg :: rs)

/-! ## Result aggregation (code-check.service.ts, lines 17-43 and 168-209) -/

/-- One category line of `RepoCheckSummary`. -/
structure CategorySummary where
  label : String
  passed : Nat
  failed : Nat
deriving DecidableEq

/-- `RepoCheckSummary` (code-check.service.ts, lines 17-38). -/
structure RepoCheckSummary where
  totalFiles : Nat
  h1Checks : CategorySummary
  imageAltChecks : CategorySummary
  w3cValidation : CategorySummary
  horizontalScrollbarChecks : CategorySummary
deriving DecidableEq

/-- `RepoCheckResult` (code-check.service.ts, lines 40-43). -/
structure RepoCheckResult where
  summary : RepoCheckSummary
  details : List FileCheckResult
deriving DecidableEq

/-- `summarizeResults` (code-check.service.ts, lines 168-209). -/
def summarizeResults (results : List FileCheckResult) : RepoCheckResult :=
  { summary :=
      { totalFiles := results.length
        h1Checks :=
          { label := SINGLE_H1_LABEL
            passed := (results.filter (fun r => r.checks.singleH1.status == Status.pass)).length
            failed := (results.filter (fun r => r.checks.singleH1.status == Status.fail)).length }
        imageAltChecks :=
          { label := IMAGE_ALTS_LABEL
            passed := (results.filter (fun r => r.checks.imageAlts.status == Status.pass)).length
            failed := (results.filter (fun r => r.checks.imageAlts.status == Status.fail)).length }
        w3cValidation :=
          { label := W3C_VALIDATION_LABEL
            passed := (results.filter (fun r => r.checks.w3cValidation.status == Status.pass)).length
            failed := (results.filter (fun r => r.checks.w3cValidation.status == Status.fail)).length }
        horizontalScrollbarChecks :=
          { label := HORIZONTAL_SCROLLBAR_LABEL
            passed := (results.filter
              (fun r => r.checks.horizontalScrollbar.status == Status.pass)).length
            failed := (results.filter
              (fun r => r.checks.horizontalScrollbar.status == Status.fail)).length } }
    details := results }

/-- `checkRepo` (code-check.service.ts, lines 53-134), as a function of the
fetch outcome and of how each HTML file's processing turns out.  The filter to
HTML files, the sequential loop, the outer catch's classification and the
final aggregation are all as in the source; URL parsing is input plumbing and
is omitted. -/
def checkRepo (fetchResult : Except ThrownError (List RepoFile))
    (outcomeOf : RepoFile → FileProcessOutcome) : Except AppError RepoCheckResult :=
  match fetchResult with
  | .error e => .error (classifyCheckRepoError e)
  | .ok files =>
    let htmlFiles := files.filter (fun f => f.type == FileType.HTML)
    match processFiles (htmlFiles.map (fun f => (f, outcomeOf f))) with
    | .error msg => .error (classifyCheckRepoError (browserErrorThrown msg))
    | .ok results => .ok (summarizeResults results)

/-- Whether a per-file outcome is a thrown `BrowserError` (the only fatal
per-file outcome). -/
def isBrowserOutcome : FileProcessOutcome → Bool
  | FileProcessOutcome.browserError _ => true
  | _ => false

/-- The record the loop body appends for one file with a non-fatal outcome
(used to state the loop's behaviour; a `browserError` outcome never
contributes a record and is mapped to the catch-block record vacuously). -/
def recordOf : RepoFile × FileProcessOutcome → FileCheckResult
  | (file, FileProcessOutcome.success obs resp) => successRecord file.path obs resp
  | (file, FileProcessOutcome.softError msg) => errorFileResult file.path msg
  | (file, FileProcessOutcome.browserError msg) => errorFileResult file.path msg

/-! ## Supporting lemmas -/

theorem containsSub_cons (pat : List Char) (c : Char) (cs : List Char) :
    containsSub pat (c :: cs) = (pat.isPrefixOf (c :: cs) || containsSub pat cs) := by
  simp [containsSub, List.tails_cons]

theorem not_containsSub_cons {pat : List Char} {c : Char} {cs : List Char}
    (h : containsSub pat (c :: cs) = false) :
    pat.isPrefixOf (c :: cs) = false ∧ containsSub pat cs = false := by
  rw [containsSub_cons] at h
  exact ⟨by simpa using (Bool.or_eq_false_iff.mp h).1,
         (Bool.or_eq_false_iff.mp h).2⟩

theorem decodeScan_of_no_entity (fuel : Nat) :
    ∀ l : List Char, hasEntitySeq l = false → decodeScan fuel l = l := by
  induction fuel with
  | zero => intro l _; rfl
  | succ fuel ih =>
    intro l h
    match l with
    | [] => rfl
    | c :: cs =>
      simp only [hasEntitySeq, entitySeqs, List.any_cons, List.any_nil,
        Bool.or_eq_false_iff] at h
      obtain ⟨h1, h2, h3, h4, h5, -⟩ := h
      have p1 := not_containsSub_cons h1
      have p2 := not_containsSub_cons h2
      have p3 := not_containsSub_cons h3
      have p4 := not_containsSub_cons h4
      have p5 := not_containsSub_cons h5
      have hcs : hasEntitySeq cs = false := by
        simp [hasEntitySeq, entitySeqs, p1.2, p2.2, p3.2, p4.2, p5.2]
      show decodeScan (fuel + 1) (c :: cs) = c :: cs
      rw [decodeScan]
      rw [p1.1, p2.1, p3.1, p4.1, p5.1]
      simp only [Bool.false_eq_true, if_false]
      rw [ih cs hcs]

theorem decodeHtmlEntities_of_no_entity (l : List Char) (h : hasEntitySeq l = false) :
    decodeHtmlEntities l = l :=
  decodeScan_of_no_entity l.length l h

theorem splitOnDot_ne_nil (l : List Char) : splitOnDot l ≠ [] := by
  cases l with
  | nil => simp [splitOnDot]
  | cons c cs =>
    rw [splitOnDot]
    cases splitOnDot cs with
    | nil => simp
    | cons seg rest =>
      dsimp only
      split <;> simp

theorem splitOnDot_of_no_dot (l : List Char) (h : '.' ∉ l) : splitOnDot l = [l] := by
  induction l with
  | nil => rfl
  | cons c cs ih =>
    have hc : c ≠ '.' := fun hc => h (hc ▸ List.mem_cons_self c cs)
    have hcs : '.' ∉ cs := fun hm => h (List.mem_cons_of_mem c hm)
    rw [splitOnDot, ih hcs]
    simp [hc]

theorem two_le_length_splitOnDot (l : List Char) (h : '.' ∈ l) :
    2 ≤ (splitOnDot l).length := by
  induction l with
  | nil => cases h
  | cons c cs ih =>
    rw [splitOnDot]
    match hs : splitOnDot cs with
    | [] => exact absurd hs (splitOnDot_ne_nil cs)
    | seg :: rest =>
      by_cases hc : c = '.'
      · simp [hc]
      · have hcs : '.' ∈ cs := by
          rcases List.mem_cons.mp h with h' | h'
          · exact absurd h'.symm hc
          · exact h'
        have := ih hcs
        rw [hs] at this
        simp only [hc, if_false]
        simpa using this

theorem getLast?_splitOnDot_append (xs ys : List Char) (h : '.' ∉ ys) :
    (splitOnDot (xs ++ '.' :: ys)).getLast? = some ys := by
  induction xs with
  | nil =>
    rw [List.nil_append, splitOnDot, splitOnDot_of_no_dot ys h]
    simp
  | cons x xs ih =>
    rw [List.cons_append, splitOnDot]
    match hs : splitOnDot (xs ++ '.' :: ys) with
    | [] => exact absurd hs (splitOnDot_ne_nil _)
    | seg :: rest =>
      have hlen : 2 ≤ (seg :: rest).length := by
        have := two_le_length_splitOnDot (xs ++ '.' :: ys)
          (by simp)
        rwa [hs] at this
      match rest with
      | [] => simp at hlen
      | r :: rs =>
        rw [hs] at ih
        by_cases hx : x = '.'
        · simpa [hx] using ih
        · simp only [hx, if_false]
          rw [List.getLast?_cons_cons]
          rwa [List.getLast?_cons_cons] at ih

theorem jsCharToLower_eq_dot {c : Char} (h : jsCharToLower c = '.') : c = '.' := by
  unfold jsCharToLower at h
  split at h
  · exfalso
    rename_i hr
    have hv : (c.toNat + 32).isValidChar := Or.inl (by omega)
    have h2 := congrArg Char.toNat h
    have h3 : (Char.ofNat (c.toNat + 32)).toNat = c.toNat + 32 := by
      unfold Char.ofNat
      rw [dif_pos hv]
      simp [Char.ofNatAux, Char.toNat, UInt32.toNat, BitVec.toNat_ofNatLt]
    rw [h3] at h2
    have h4 : ('.' : Char).toNat = 46 := by decide
    omega
  · exact h

/-- If the lowercased filename ends in `'.' :: tail` with no dot in `tail`, then
the segment `split('.').pop()` returns is exactly the part after that dot, and
it lowercases to `tail`. -/
theorem getLast?_splitOnDot_of_lower_suffix (f : String) (tail : List Char)
    (hdot : '.' ∉ tail)
    (hsuf : ('.' :: tail).isSuffixOf (jsToLower f.data) = true) :
    ∃ ext, (splitOnDot f.data).getLast? = some ext ∧ jsToLower ext = tail := by
  rw [List.isSuffixOf_iff_suffix] at hsuf
  obtain ⟨pre, hpre⟩ := hsuf
  have hmap : List.map jsCharToLower f.data = pre ++ '.' :: tail := by
    unfold jsToLower at hpre
    exact hpre.symm
  rw [List.map_eq_append_iff] at hmap
  obtain ⟨l₁, l₂, hsplit, -, hm2⟩ := hmap
  cases l₂ with
  | nil => simp at hm2
  | cons d l₃ =>
    rw [List.map_cons, List.cons.injEq] at hm2
    obtain ⟨hd, hl₃⟩ := hm2
    have hd' : d = '.' := jsCharToLower_eq_dot hd
    have hnodot : '.' ∉ l₃ := by
      intro hmem
      have hmem2 : jsCharToLower '.' ∈ List.map jsCharToLower l₃ :=
        List.mem_map_of_mem _ hmem
      rw [hl₃] at hmem2
      have : ('.' : Char) ∈ tail := by
        have hdotlower : jsCharToLower '.' = '.' := by decide
        rwa [hdotlower] at hmem2
      exact hdot this
    refine ⟨l₃, ?_, hl₃⟩
    rw [hsplit, hd']
    exact getLast?_splitOnDot_append l₁ l₃ hnodot

theorem getFileType_isSome_of_relevant (filename : String)
    (h : isRelevantFile filename = true) : (getFileType filename).isSome = true := by
  simp only [isRelevantFile, List.any_cons, List.any_nil, Bool.or_eq_true,
    Bool.false_eq_true, or_false] at h
  rcases h with h | h | h
  · obtain ⟨ext, hlast, hext⟩ :=
      getLast?_splitOnDot_of_lower_suffix filename "html".data (by decide) h
    unfold getFileType
    rw [hlast]
    dsimp only
    rw [hext]
    decide
  · obtain ⟨ext, hlast, hext⟩ :=
      getLast?_splitOnDot_of_lower_suffix filename "css".data (by decide) h
    unfold getFileType
    rw [hlast]
    dsimp only
    rw [hext]
    decide
  · obtain ⟨ext, hlast, hext⟩ :=
      getLast?_splitOnDot_of_lower_suffix filename "js".data (by decide) h
    unfold getFileType
    rw [hlast]
    dsimp only
    rw [hext]
    decide

theorem fetchDirectory_isOk (entries : List Entry) :
    ∃ fs, fetchDirectory entries = .ok fs := by
  induction entries using fetchDirectory.induct with
  | case1 => exact ⟨[], by rw [fetchDirectory]⟩
  | case2 name path url rest hrel t hty e herr ih =>
    obtain ⟨fs, hfs⟩ := ih
    rw [hfs] at herr
    cases herr
  | case3 name path url rest hrel t hty fs hfs ih =>
    rw [fetchDirectory, if_pos hrel, hty, hfs]
    exact ⟨_, rfl⟩
  | case4 name path url rest hrel hty =>
    have hsome := getFileType_isSome_of_relevant name hrel
    rw [hty] at hsome
    cases hsome
  | case5 name path url rest hrel ih =>
    rw [fetchDirectory, if_neg hrel]
    exact ih
  | case6 p entries rest e herr ih =>
    obtain ⟨fs, hfs⟩ := ih
    rw [hfs] at herr
    cases herr
  | case7 p entries rest fs hok e herr ihe ihr =>
    obtain ⟨fs₂, hfs₂⟩ := ihr
    rw [hfs₂] at herr
    cases herr
  | case8 p entries rest fs₁ h₁ fs₂ h₂ ihe ihr =>
    rw [fetchDirectory, h₁, h₂]
    exact ⟨_, rfl⟩

theorem allChecksPassed_iff (c : FileChecks) :
    allChecksPassed c = true ↔
      (c.singleH1.status = Status.pass ∧ c.imageAlts.status = Status.pass ∧
       c.w3cValidation.status = Status.pass ∧ c.horizontalScrollbar.status = Status.pass) := by
  simp [allChecksPassed]

theorem length_filter_pass_add_fail (g : FileCheckResult → Status)
    (l : List FileCheckResult) :
    (l.filter (fun r => g r == Status.pass)).length
      + (l.filter (fun r => g r == Status.fail)).length = l.length := by
  induction l with
  | nil => rfl
  | cons x xs ih =>
    cases hg : g x <;> simp [List.filter_cons, hg] <;> omega

theorem processFiles_ok_of_no_browser (l : List (RepoFile × FileProcessOutcome))
    (h : ∀ x ∈ l, isBrowserOutcome x.2 = false) :
    processFiles l = .ok (l.map recordOf) := by
  induction l with
  | nil => rfl
  | cons x xs ih =>
    have hxs : ∀ y ∈ xs, isBrowserOutcome y.2 = false :=
      fun y hy => h y (List.mem_cons_of_mem x hy)
    obtain ⟨file, outcome⟩ := x
    cases outcome with
    | browserError msg =>
      have := h (file, FileProcessOutcome.browserError msg) (List.mem_cons_self _ _)
      simp [isBrowserOutcome] at this
    | success obs resp =>
      rw [List.map_cons, processFiles]
      rw [ih hxs]
      rfl
    | softError msg =>
      rw [List.map_cons, processFiles]
      rw [ih hxs]
      rfl

theorem processFiles_browser_abort (pre post : List (RepoFile × FileProcessOutcome))
    (file : RepoFile) (msg : String)
    (hpre : ∀ x ∈ pre, isBrowserOutcome x.2 = false) :
    processFiles (pre ++ (file, FileProcessOutcome.browserError msg) :: post)
      = .error msg := by
  induction pre with
  | nil => rfl
  | cons x xs ih =>
    have hxs : ∀ y ∈ xs, isBrowserOutcome y.2 = false :=
      fun y hy => hpre y (List.mem_cons_of_mem x hy)
    obtain ⟨f, outcome⟩ := x
    cases outcome with
    | browserError m =>
      have := hpre (f, FileProcessOutcome.browserError m) (List.mem_cons_self _ _)
      simp [isBrowserOutcome] at this
    | success obs resp =>
      rw [List.cons_append, processFiles, ih hxs]
    | softError m =>
      rw [List.cons_append, processFiles, ih hxs]

/-! ## Claim theorems -/

/-- C1, counterexample: the markup submitted to the validation endpoint is NOT
the raw, non-decoded file content — for the raw content `&lt;div&gt;` the
submitted string differs from it. -/
theorem validator_receives_raw_counterexample :
    validatorSubmission "&lt;div&gt;".data
        { h1Count := 0, images := [], hasScrollbarAt := fun _ => false } "index.html"
      ≠ "&lt;div&gt;".data := by
  decide

/-- C1 (amended): for every file processed in a run, the markup submitted to
the external standards-validation endpoint (posted unchanged as the request
body) is the entity-decoded content of the file — exactly the string injected
into the rendering context via `setContent` — not the raw content. -/
theorem validator_receives_decoded_content (raw : List Char) (obs : PageObservation)
    (filePath : String) :
    validatorPostBody (validatorSubmission raw obs filePath) = setContentArg raw
    ∧ validatorSubmission raw obs filePath = decodeHtmlEntities raw :=
  ⟨rfl, rfl⟩

/-- C2: when the repository fetch fails — whether because the remote path does
not exist (GitHub 404) or because the host is unreachable — `checkRepo` raises
`UnknownError`, not `RepoNotFoundError`/`NetworkError` as specified: the
`HttpException` thrown by `GitService` carries neither a `response.status` nor
a `code` attribute, so both classification tests fall through.  The run does
abort before any per-file processing (the result is an error, never a
summary). -/
theorem checkRepo_fetch_failure_yields_unknownError (ff : FetchFailure)
    (outcomeOf : RepoFile → FileProcessOutcome) :
    checkRepo (.error (gitFetchError ff)) outcomeOf
      = .error (AppError.unknownError
          ("Failed to check repository: " ++ (gitFetchError ff).message)) := by
  cases ff <;> rfl

/-- C3: for every completed run (any list of per-file results, including the
empty list) the emitted summary satisfies `passed + failed = totalFiles` for
each of the four check categories, and the details sequence is exactly the
per-file result list in processing order (hence has length `totalFiles`). -/
theorem summarizeResults_invariants (results : List FileCheckResult) :
    (summarizeResults results).summary.h1Checks.passed
        + (summarizeResults results).summary.h1Checks.failed
        = (summarizeResults results).summary.totalFiles
    ∧ (summarizeResults results).summary.imageAltChecks.passed
        + (summarizeResults results).summary.imageAltChecks.failed
        = (summarizeResults results).summary.totalFiles
    ∧ (summarizeResults results).summary.w3cValidation.passed
        + (summarizeResults results).summary.w3cValidation.failed
        = (summarizeResults results).summary.totalFiles
    ∧ (summarizeResults results).summary.horizontalScrollbarChecks.passed
        + (summarizeResults results).summary.horizontalScrollbarChecks.failed
        = (summarizeResults results).summary.totalFiles
    ∧ (summarizeResults results).details = results
    ∧ (summarizeResults results).details.length
        = (summarizeResults results).summary.totalFiles := by
  refine ⟨?_, ?_, ?_, ?_, rfl, rfl⟩
  · exact length_filter_pass_add_fail (fun r => r.checks.singleH1.status) results
  · exact length_filter_pass_add_fail (fun r => r.checks.imageAlts.status) results
  · exact length_filter_pass_add_fail (fun r => r.checks.w3cValidation.status) results
  · exact length_filter_pass_add_fail (fun r => r.checks.horizontalScrollbar.status) results

/-- C4: every `FileCheckResult` the per-file loop appends has `passed = true`
exactly when all four sub-checks have status `pass`. -/
theorem processFiles_passed_iff_all_pass (inputs : List (RepoFile × FileProcessOutcome))
    (results : List FileCheckResult) (h : processFiles inputs = .ok results) :
    ∀ r ∈ results, (r.passed = true ↔
      (r.checks.singleH1.status = Status.pass
       ∧ r.checks.imageAlts.status = Status.pass
       ∧ r.checks.w3cValidation.status = Status.pass
       ∧ r.checks.horizontalScrollbar.status = Status.pass)) := by
  induction inputs generalizing results with
  | nil =>
    rw [processFiles] at h
    cases h
    intro r hr
    cases hr
  | cons x xs ih =>
    obtain ⟨file, outcome⟩ := x
    cases outcome with
    | browserError msg => rw [processFiles] at h; cases h
    | success obs resp =>
      rw [processFiles] at h
      cases hxs : processFiles xs with
      | error e => rw [hxs] at h; cases h
      | ok rs =>
        rw [hxs] at h
        cases h
        intro r hr
        rcases List.mem_cons.mp hr with rfl | hr'
        · exact allChecksPassed_iff _
        · exact ih rs hxs r hr'
    | softError msg =>
      rw [processFiles] at h
      cases hxs : processFiles xs with
      | error e => rw [hxs] at h; cases h
      | ok rs =>
        rw [hxs] at h
        cases h
        intro r hr
        rcases List.mem_cons.mp hr with rfl | hr'
        · simp [errorFileResult]
        · exact ih rs hxs r hr'

/-- C4 witness: the loop run on one file whose checks throw a soft error
appends the all-failed record, whose `passed` flag is `false` and whose
sub-checks are indeed not all `pass`. -/
theorem processFiles_passed_iff_all_pass_witness :
    ((errorFileResult "index.html" "boom").passed = true ↔
      ((errorFileResult "index.html" "boom").checks.singleH1.status = Status.pass
       ∧ (errorFileResult "index.html" "boom").checks.imageAlts.status = Status.pass
       ∧ (errorFileResult "index.html" "boom").checks.w3cValidation.status = Status.pass
       ∧ (errorFileResult "index.html" "boom").checks.horizontalScrollbar.status
           = Status.pass)) :=
  processFiles_passed_iff_all_pass
    [({ name := "index.html", path := "index.html", type := FileType.HTML, url := "u" },
      FileProcessOutcome.softError "boom")]
    [errorFileResult "index.html" "boom"] rfl
    (errorFileResult "index.html" "boom") (List.mem_singleton_self _)

/-- C5: a non-fatal per-file error makes the loop append a record in which all
four check categories have status `fail` and carry the same error message, and
the remaining files are still processed (their records follow in order). -/
theorem processFiles_soft_error_continues (pre post : List (RepoFile × FileProcessOutcome))
    (file : RepoFile) (msg : String)
    (hpre : ∀ x ∈ pre, isBrowserOutcome x.2 = false)
    (hpost : ∀ x ∈ post, isBrowserOutcome x.2 = false) :
    processFiles (pre ++ (file, FileProcessOutcome.softError msg) :: post)
      = .ok (pre.map recordOf ++ errorFileResult file.path msg :: post.map recordOf)
    ∧ (errorFileResult file.path msg).checks.singleH1.status = Status.fail
    ∧ (errorFileResult file.path msg).checks.imageAlts.status = Status.fail
    ∧ (errorFileResult file.path msg).checks.w3cValidation.status = Status.fail
    ∧ (errorFileResult file.path msg).checks.horizontalScrollbar.status = Status.fail
    ∧ (errorFileResult file.path msg).checks.singleH1.message = some ("Error: " ++ msg)
    ∧ (errorFileResult file.path msg).checks.imageAlts.message = some ("Error: " ++ msg)
    ∧ (errorFileResult file.path msg).checks.w3cValidation.message = some ("Error: " ++ msg)
    ∧ (errorFileResult file.path msg).checks.horizontalScrollbar.message
        = some ("Error: " ++ msg) := by
  refine ⟨?_, rfl, rfl, rfl, rfl, rfl, rfl, rfl, rfl⟩
  have hall : ∀ x ∈ pre ++ (file, FileProcessOutcome.softError msg) :: post,
      isBrowserOutcome x.2 = false := by
    intro x hx
    rcases List.mem_append.mp hx with hx' | hx'
    · exact hpre x hx'
    · rcases List.mem_cons.mp hx' with rfl | hx2
      · rfl
      · exact hpost x hx2
  rw [processFiles_ok_of_no_browser _ hall, List.map_append, List.map_cons]
  rfl

/-- C5 witness: with one earlier successful file and one later soft-failing
file, the loop yields both records, the failing one all-failed with the error
message. -/
theorem processFiles_soft_error_continues_witness :
    (processFiles
        [({ name := "a.html", path := "a.html", type := FileType.HTML, url := "ua" },
          FileProcessOutcome.success
            { h1Count := 1, images := [], hasScrollbarAt := fun _ => false } (.ok [])),
         ({ name := "b.html", path := "b.html", type := FileType.HTML, url := "ub" },
          FileProcessOutcome.softError "net down")]
      = .ok [successRecord "a.html"
               { h1Count := 1, images := [], hasScrollbarAt := fun _ => false } (.ok []),
             errorFileResult "b.html" "net down"])
    ∧ (errorFileResult "b.html" "net down").checks.singleH1.status = Status.fail
    ∧ (errorFileResult "b.html" "net down").checks.imageAlts.status = Status.fail
    ∧ (errorFileResult "b.html" "net down").checks.w3cValidation.status = Status.fail
    ∧ (errorFileResult "b.html" "net down").checks.horizontalScrollbar.status = Status.fail
    ∧ (errorFileResult "b.html" "net down").checks.singleH1.message
        = some ("Error: " ++ "net down")
    ∧ (errorFileResult "b.html" "net down").checks.imageAlts.message
        = some ("Error: " ++ "net down")
    ∧ (errorFileResult "b.html" "net down").checks.w3cValidation.message
        = some ("Error: " ++ "net down")
    ∧ (errorFileResult "b.html" "net down").checks.horizontalScrollbar.message
        = some ("Error: " ++ "net down") :=
  processFiles_soft_error_continues
    [({ name := "a.html", path := "a.html", type := FileType.HTML, url := "ua" },
      FileProcessOutcome.success
        { h1Count := 1, images := [], hasScrollbarAt := fun _ => false } (.ok []))]
    []
    { name := "b.html", path := "b.html", type := FileType.HTML, url := "ub" }
    "net down"
    (by intro x hx; rcases List.mem_singleton.mp hx with rfl; rfl)
    (by intro x hx; cases hx)

/-- C6: if a `BrowserError` is thrown while processing any HTML file (every
earlier file having been processed non-fatally), `checkRepo` aborts with that
`BrowserError` — same message, rethrown unchanged by both catch blocks — and
produces no summary and no partial result list. -/
theorem checkRepo_browser_error_aborts (files : List RepoFile)
    (outcomeOf : RepoFile → FileProcessOutcome)
    (pre post : List (RepoFile × FileProcessOutcome)) (file : RepoFile) (msg : String)
    (hsplit : (files.filter (fun f => f.type == FileType.HTML)).map (fun f => (f, outcomeOf f))
        = pre ++ (file, FileProcessOutcome.browserError msg) :: post)
    (hpre : ∀ x ∈ pre, isBrowserOutcome x.2 = false) :
    checkRepo (.ok files) outcomeOf = .error (AppError.browserError msg) := by
  simp only [checkRepo]
  rw [hsplit, processFiles_browser_abort pre post file msg hpre]
  rfl

/-- C6 witness: a run whose single HTML file throws
`Browser instance is not available` aborts with exactly that `BrowserError`. -/
theorem checkRepo_browser_error_aborts_witness :
    checkRepo
        (.ok [{ name := "index.html", path := "index.html", type := FileType.HTML,
                url := "u" }])
        (fun _ => FileProcessOutcome.browserError "Browser instance is not available")
      = .error (AppError.browserError "Browser instance is not available") :=
  checkRepo_browser_error_aborts
    [{ name := "index.html", path := "index.html", type := FileType.HTML, url := "u" }]
    (fun _ => FileProcessOutcome.browserError "Browser instance is not available")
    []
    []
    { name := "index.html", path := "index.html", type := FileType.HTML, url := "u" }
    "Browser instance is not available"
    rfl
    (by intro x hx; cases hx)

theorem mem_sweepWidths (w : Nat) :
    w ∈ sweepWidths ↔ (320 ≤ w ∧ w ≤ 1920 ∧ w % 10 = 0) := by
  simp only [sweepWidths, List.mem_map, List.mem_range]
  constructor
  · rintro ⟨k, hk, rfl⟩
    omega
  · rintro ⟨h1, h2, h3⟩
    exact ⟨(w - 320) / 10, by omega, by omega⟩

theorem sweepWidths_pairwise : sweepWidths.Pairwise (· < ·) := by
  have h := List.pairwise_lt_range 161
  rw [sweepWidths, List.pairwise_map]
  exact h.imp (by omega)

theorem find?_eq_some_first {p : Nat → Bool} {w : Nat} (l : List Nat)
    (hsorted : l.Pairwise (· < ·)) (h : l.find? p = some w) :
    ∀ v ∈ l, v < w → p v = false := by
  induction l with
  | nil => intro v hv; cases hv
  | cons x xs ih =>
    intro v hv hvw
    by_cases hx : p x = true
    · rw [List.find?_cons_of_pos _ hx] at h
      injection h with h
      subst h
      rcases List.mem_cons.mp hv with rfl | hv'
      · omega
      · have := (List.pairwise_cons.mp hsorted).1 v hv'
        omega
    · have hx' : p x = false := by
        cases hpx : p x
        · rfl
        · exact absurd hpx hx
      rw [List.find?_cons_of_neg _ hx] at h
      rcases List.mem_cons.mp hv with rfl | hv'
      · exact hx'
      · exact ih (List.pairwise_cons.mp hsorted).2 h v hv' hvw

/-- C7: the horizontal-overflow check sweeps exactly the widths
320, 330, …, 1920 (step 10); it fails precisely when some sampled width
overflows, in which case it reports the first such width inside its message;
it passes exactly when no sampled width overflows. -/
theorem checkHorizontalScrollbar_sweep (hasScrollbarAt : Nat → Bool) :
    (∀ w, w ∈ sweepWidths ↔ (320 ≤ w ∧ w ≤ 1920 ∧ w % 10 = 0))
    ∧ ((checkHorizontalScrollbar hasScrollbarAt).status = Status.fail
        ↔ ∃ w ∈ sweepWidths, hasScrollbarAt w = true)
    ∧ (∀ w, sweepWidths.find? hasScrollbarAt = some w →
        hasScrollbarAt w = true
        ∧ (∀ v ∈ sweepWidths, v < w → hasScrollbarAt v = false)
        ∧ checkHorizontalScrollbar hasScrollbarAt
            = { status := Status.fail,
                message := some ("Horizontal scrollbar detected at "
                  ++ toString w ++ "px width") })
    ∧ (sweepWidths.find? hasScrollbarAt = none →
        checkHorizontalScrollbar hasScrollbarAt
          = { status := Status.pass,
              message := some
                "No horizontal scrollbar detected for widths 320px and above" }) := by
  refine ⟨mem_sweepWidths, ?_, ?_, ?_⟩
  · constructor
    · intro hfail
      cases hfind : sweepWidths.find? hasScrollbarAt with
      | none =>
        rw [checkHorizontalScrollbar, hfind] at hfail
        cases hfail
      | some w =>
        exact ⟨w, List.mem_of_find?_eq_some hfind, List.find?_some hfind⟩
    · rintro ⟨w, hw, hsc⟩
      cases hfind : sweepWidths.find? hasScrollbarAt with
      | none =>
        rw [List.find?_eq_none] at hfind
        exact absurd hsc (by simpa using hfind w hw)
      | some v =>
        rw [checkHorizontalScrollbar, hfind]
  · intro w hfind
    exact ⟨List.find?_some hfind,
           find?_eq_some_first sweepWidths sweepWidths_pairwise hfind,
           by rw [checkHorizontalScrollbar, hfind]⟩
  · intro hfind
    rw [checkHorizontalScrollbar, hfind]

/-- C7 witness: a page that overflows at every width from 400 up is reported
as failing at width 400 — the first sampled width with overflow. -/
theorem checkHorizontalScrollbar_sweep_witness :
    checkHorizontalScrollbar (fun w => decide (400 ≤ w))
      = { status := Status.fail,
          message := some "Horizontal scrollbar detected at 400px width" } :=
  ((checkHorizontalScrollbar_sweep (fun w => decide (400 ≤ w))).2.2.1 400
    (by decide)).2.2

theorem length_filterMap_eq_length_filter_isSome {α β : Type} (f : α → Option β)
    (l : List α) :
    (l.filterMap f).length = (l.filter (fun a => (f a).isSome)).length := by
  induction l with
  | nil => rfl
  | cons x xs ih =>
    cases hx : f x <;>
      simp [List.filterMap_cons, List.filter_cons, hx, ih]

/-- C8: the image alt-text check passes exactly when no image is flagged (an
image is flagged when its `alt` attribute is absent, empty after trimming, or
case-insensitively contains `image` or `picture`); on pass the message reports
the total image count; each flagged image contributes exactly one detail line;
and the spec's three-image example fails with exactly its three 1-indexed
detail lines. -/
theorem checkImageAlts_spec :
    (∀ images, ((checkImageAlts images).status = Status.pass
        ↔ ∀ p ∈ images.enum, imageAltIssue p.1 p.2 = none))
    ∧ (∀ images, (checkImageAlts images).status = Status.pass →
        (checkImageAlts images).message
          = some ("All " ++ toString images.length
              ++ " images have appropriate alt attributes"))
    ∧ (∀ images, (imageAltIssues images).length
        = (images.enum.filter (fun p => (imageAltIssue p.1 p.2).isSome)).length)
    ∧ checkImageAlts
        [{ hasAlt := false, alt := "" }, { hasAlt := true, alt := "" },
         { hasAlt := true, alt := "a nice image" }]
        = { status := Status.fail,
            message := some "Some images have issues with alt attributes",
            details := some
              ["Image #1 is missing alt attribute",
               "Image #2 has an empty alt attribute",
               "Image #3 has alt text containing \"image\" or \"picture\": \"a nice image\""] } := by
  refine ⟨?_, ?_, ?_, by decide⟩
  · intro images
    simp only [checkImageAlts]
    split
    next hemp =>
      have hnone : imageAltIssues images = [] := List.isEmpty_iff.mp hemp
      rw [imageAltIssues, List.filterMap_eq_nil_iff] at hnone
      exact ⟨fun _ p hp => hnone p hp, fun _ => rfl⟩
    next hemp =>
      constructor
      · intro hc
        simp at hc
      · intro hall
        exfalso
        apply hemp
        rw [List.isEmpty_iff, imageAltIssues, List.filterMap_eq_nil_iff]
        intro p hp
        exact hall p hp
  · intro images hpass
    simp only [checkImageAlts] at hpass ⊢
    split at hpass
    next hemp =>
      rw [if_pos hemp]
    next hemp =>
      simp at hpass
  · intro images
    exact length_filterMap_eq_length_filter_isSome _ _

/-- C8 witness: a page with no images passes, and its pass message reports the
image count 0. -/
theorem checkImageAlts_spec_witness :
    (checkImageAlts []).status = Status.pass
    ∧ (checkImageAlts []).message
        = some ("All " ++ toString (0 : Nat) ++ " images have appropriate alt attributes") :=
  ⟨by decide, checkImageAlts_spec.2.1 [] (by decide)⟩

/-- C9: the entity decoder maps each of `&lt; &gt; &amp; &quot; &#39;` to its
literal character, decodes the spec's example accordingly, and leaves any
string containing none of the five entity sequences unchanged. -/
theorem decodeHtmlEntities_spec :
    (decodeHtmlEntitiesStr "&lt;" = "<"
      ∧ decodeHtmlEntitiesStr "&gt;" = ">"
      ∧ decodeHtmlEntitiesStr "&amp;" = "&"
      ∧ decodeHtmlEntitiesStr "&quot;" = "\""
      ∧ decodeHtmlEntitiesStr "&#39;" = String.mk [apostrophe])
    ∧ decodeHtmlEntitiesStr "&lt;div&gt;&amp;&quot;x&#39;&lt;/div&gt;"
        = "<div>&\"x".push apostrophe ++ "</div>"
    ∧ (∀ s : String, hasEntitySeq s.data = false → decodeHtmlEntitiesStr s = s) := by
  refine ⟨by decide, by decide, ?_⟩
  intro s h
  rw [decodeHtmlEntitiesStr, decodeHtmlEntities_of_no_entity s.data h]

/-- C9 witness: a plain string (even one containing a lone `&` and angle
brackets) contains no entity sequence and decodes to itself. -/
theorem decodeHtmlEntities_spec_witness :
    hasEntitySeq "plain <div> & text".data = false
    ∧ decodeHtmlEntitiesStr "plain <div> & text" = "plain <div> & text" :=
  ⟨by decide, decodeHtmlEntities_spec.2.2 "plain <div> & text" (by decide)⟩

/-- C10: every filename accepted by the relevance filter is classified by
`getFileType` without reaching its `Unsupported file type` branch, and hence
the whole traversal — which only classifies filenames that passed the
filter — can never hit that branch, whatever the directory tree. -/
theorem relevantFile_classification_total :
    (∀ filename, isRelevantFile filename = true → (getFileType filename).isSome = true)
    ∧ (∀ entries, ∃ fs, fetchDirectory entries = .ok fs) :=
  ⟨getFileType_isSome_of_relevant, fetchDirectory_isOk⟩

/-- C10 witness: `Index.HTML` passes the filter and is classified. -/
theorem relevantFile_classification_total_witness :
    isRelevantFile "Index.HTML" = true ∧ (getFileType "Index.HTML").isSome = true :=
  ⟨by decide, relevantFile_classification_total.1 "Index.HTML" (by decide)⟩

end CodeChecker
